import Mathlib

/-!
Verification of the configuration-merge engine and recipe glue of the
quacc repository (recipes for Gaussian, VASP and Q-Chem).

The recipes under `src/quacc/recipes` call `merge_dicts` from
`quacc.utils.dicts`; that utility module is not part of the repository
snapshot, so `merge_dicts` and its validation wrapper are modelled from the
specification of the Configuration Merge Engine.  Everything else
(recipe default dictionaries, the VASP double-relaxation wiring) is
translated directly from the Python sources.

Python dictionaries are modelled as association lists with string keys,
in insertion order, where updating an existing key keeps its position and
inserting a new key appends at the end — exactly the observable behaviour
of `dict` in CPython.  A value stored in a configuration layer is an
`Option Val`: `none` models Python `None`, the removal sentinel.
-/

namespace Quacc

/-- A configuration value: the scalar and list shapes actually used by the
recipe default dictionaries in the sources (strings, integers, booleans,
floating literals modelled as rationals, and lists of strings). -/
inductive Val where
  | vstr : String → Val
  | vint : Int → Val
  | vbool : Bool → Val
  | vrat : Rat → Val
  | vstrList : List String → Val
deriving DecidableEq

/-- A configuration layer / merged configuration: an ordered mapping from
option names to values, where a stored `none` is the removal sentinel
(Python `None`). -/
abbrev ConfigDict : Type := List (String × Option Val)

/-- First-occurrence lookup in an ordered mapping (Python `d[k]` /
`d.get(k)`: association lists built by the operations below have unique
keys, so first occurrence is the occurrence). -/
def lookupKey {α : Type} : List (String × α) → String → Option α
  | [], _ => none
  | kv :: rest, key => if kv.1 = key then some kv.2 else lookupKey rest key

/-- Python `d[k] = v`: overwrite in place if the key is present (keeping
its position), otherwise append the new binding at the end. -/
def setKey {α : Type} : List (String × α) → String → α → List (String × α)
  | [], key, v => [(key, v)]
  | kv :: rest, key, v =>
    if kv.1 = key then (kv.1, v) :: rest else kv :: setKey rest key v

/-- Python `del d[k]` on a mapping: remove the binding for `key`;
removing an absent key leaves the mapping unchanged. -/
def delKey {α : Type} : List (String × α) → String → List (String × α)
  | [], _ => []
  | kv :: rest, key =>
    if kv.1 = key then delKey rest key else kv :: delKey rest key

/-- The keys of an ordered mapping, in order. -/
def keysOf {α : Type} (m : List (String × α)) : List String :=
  m.map (fun kv => kv.1)

/-- One step of the merge algorithm, for a single key/value pair of a
layer: if removal semantics are on and the value is the sentinel, delete
the key from the accumulated result (a no-op when absent); otherwise
set/overwrite the key with this value. -/
def applyEntry (remove_nones : Bool) (acc : ConfigDict)
    (kv : String × Option Val) : ConfigDict :=
  if remove_nones && kv.2.isNone then delKey acc kv.1
  else setKey acc kv.1 kv.2

/-- Fold one whole layer into the accumulated result, entry by entry. -/
def mergeLayer (remove_nones : Bool) (acc : ConfigDict)
    (layer : ConfigDict) : ConfigDict :=
  layer.foldl (applyEntry remove_nones) acc

/-- Fold one optional layer into the accumulated result: absent (`None`)
layers are skipped. -/
def applyLayerOpt (remove_nones : Bool) (acc : ConfigDict)
    (ol : Option ConfigDict) : ConfigDict :=
  match ol with
  | none => acc
  | some layer => mergeLayer remove_nones acc layer

/-- Modelled from the spec: `merge_dicts` from `quacc.utils.dicts`, which
every recipe imports but whose source file is missing from the repository
snapshot.  Following the specified algorithm: start from an empty ordered
mapping; for each layer in precedence order (skipping absent layers) and
each key/value pair in the layer, delete the key when the value is the
removal sentinel and `remove_nones` is true, otherwise set/overwrite the
key; return the accumulated mapping. -/
def merge_dicts (layers : List (Option ConfigDict))
    (remove_nones : Bool) : ConfigDict :=
  layers.foldl (applyLayerOpt remove_nones) []

/-- The determination a single layer makes for key `k`, given the
determination `d` of the lower-precedence layers: the last entry of the
layer with key `k` wins, and a layer with no such entry leaves `d`. -/
def layerLast (k : String) (d : Option (Option Val))
    (layer : ConfigDict) : Option (Option Val) :=
  layer.foldl (fun a kv => if kv.1 = k then some kv.2 else a) d

/-- One optional layer's contribution to the final determination for a
key. -/
def lastDefStep (k : String) (d : Option (Option Val))
    (ol : Option ConfigDict) : Option (Option Val) :=
  match ol with
  | none => d
  | some layer => layerLast k d layer

/-- The value for key `k` from the highest-precedence layer that defines
`k` (`none` when no layer defines it): the specification's notion of the
final determination for a key. -/
def lastDef (layers : List (Option ConfigDict)) (k : String) :
    Option (Option Val) :=
  layers.foldl (lastDefStep k) none

/-- How a final determination shows up in the merged mapping: an
undetermined key is absent, a key finally determined to the removal
sentinel is absent when removal semantics are on, and any other
determination is present as is. -/
def sentinelView (remove_nones : Bool) (d : Option (Option Val)) :
    Option (Option Val) :=
  match d with
  | none => none
  | some v => if remove_nones && v.isNone then none else some v

/-- The `defaults` dictionary built by `relax_job` in
`src/quacc/recipes/gaussian/core.py` (lines 174-189): `cpu_count` stands
for `multiprocessing.cpu_count()`, and the `freq` entry is `"" if freq
else None`. -/
def gaussian_relax_defaults (cpu_count : Nat) (xc basis : String)
    (charge spin_multiplicity : Int) (freq : Bool) : ConfigDict :=
  [("mem", some (Val.vstr "16GB")),
   ("chk", some (Val.vstr "Gaussian.chk")),
   ("nprocshared", some (Val.vint cpu_count)),
   ("xc", some (Val.vstr xc)),
   ("basis", some (Val.vstr basis)),
   ("charge", some (Val.vint charge)),
   ("mult", some (Val.vint spin_multiplicity)),
   ("opt", some (Val.vstr "")),
   ("pop", some (Val.vstr "CM5")),
   ("scf", some (Val.vstrList ["maxcycle=250", "xqc"])),
   ("integral", some (Val.vstr "ultrafine")),
   ("nosymmetry", some (Val.vstr "")),
   ("freq", if freq then some (Val.vstr "") else none),
   ("ioplist", some (Val.vstrList ["2/9=2000"]))]

/-- The flag merge done by `_base_job` in
`src/quacc/recipes/gaussian/core.py` line 230:
`flags = merge_dicts(defaults, calc_swaps)`, with the default removal
semantics (`remove_nones` true). -/
def gaussian_base_job_flags (defaults calc_swaps : Option ConfigDict) :
    ConfigDict :=
  merge_dicts [defaults, calc_swaps] true

/-- The calculator flags computed by the Gaussian `relax_job` for given
parameters and user kwargs. -/
def gaussian_relax_job_flags (cpu_count : Nat) (xc basis : String)
    (charge spin_multiplicity : Int) (freq : Bool)
    (kwargs : ConfigDict) : ConfigDict :=
  gaussian_base_job_flags
    (some (gaussian_relax_defaults cpu_count xc basis charge
      spin_multiplicity freq))
    (some kwargs)

/-- The `defaults` dictionary of `static_job` in
`src/quacc/recipes/vasp/core.py` (lines 66-74). -/
def vasp_static_defaults : ConfigDict :=
  [("ismear", some (Val.vint (-5))),
   ("laechg", some (Val.vbool true)),
   ("lcharg", some (Val.vbool true)),
   ("lreal", some (Val.vbool false)),
   ("lwave", some (Val.vbool true)),
   ("nedos", some (Val.vint 5001)),
   ("nsw", some (Val.vint 0))]

/-- The `defaults` dictionary of `relax_job` in
`src/quacc/recipes/vasp/core.py` (lines 133-142): `ediffg = -0.02`,
`symprec = 1e-8`, `isif = 3 if relax_cell else 2`. -/
def vasp_relax_defaults (relax_cell : Bool) : ConfigDict :=
  [("ediffg", some (Val.vrat (-2/100))),
   ("isif", some (Val.vint (if relax_cell then 3 else 2))),
   ("ibrion", some (Val.vint 2)),
   ("isym", some (Val.vint 0)),
   ("lcharg", some (Val.vbool false)),
   ("lwave", some (Val.vbool false)),
   ("nsw", some (Val.vint 200)),
   ("symprec", some (Val.vrat (1/100000000)))]

/-- The `defaults` dictionary of `slab_static_job` in
`src/quacc/recipes/vasp/slabs.py` (lines 62-72). -/
def slab_static_defaults : ConfigDict :=
  [("auto_dipole", some (Val.vbool true)),
   ("ismear", some (Val.vint (-5))),
   ("laechg", some (Val.vbool true)),
   ("lcharg", some (Val.vbool true)),
   ("lreal", some (Val.vbool false)),
   ("lvhar", some (Val.vbool true)),
   ("lwave", some (Val.vbool true)),
   ("nedos", some (Val.vint 5001)),
   ("nsw", some (Val.vint 0))]

/-- The `defaults` dictionary of `slab_relax_job` in
`src/quacc/recipes/vasp/slabs.py` (lines 127-137). -/
def slab_relax_defaults : ConfigDict :=
  [("auto_dipole", some (Val.vbool true)),
   ("ediffg", some (Val.vrat (-2/100))),
   ("isif", some (Val.vint 2)),
   ("ibrion", some (Val.vint 2)),
   ("isym", some (Val.vint 0)),
   ("lcharg", some (Val.vbool false)),
   ("lwave", some (Val.vbool false)),
   ("nsw", some (Val.vint 200)),
   ("symprec", some (Val.vrat (1/100000000)))]

/-- The flag merge done by `_base_job` in
`src/quacc/recipes/vasp/core.py` line 248:
`flags = merge_dicts(defaults, calc_swaps, remove_nones=False)`.  The
resulting `flags` mapping is what gets splatted into the `Vasp`
calculator constructor on line 250. -/
def vasp_base_job_flags (defaults calc_swaps : Option ConfigDict) :
    ConfigDict :=
  merge_dicts [defaults, calc_swaps] false

/-- Calculator flags of the VASP `static_job` for given user kwargs. -/
def vasp_static_job_flags (kwargs : ConfigDict) : ConfigDict :=
  vasp_base_job_flags (some vasp_static_defaults) (some kwargs)

/-- Calculator flags of the VASP `relax_job` for given user kwargs. -/
def vasp_relax_job_flags (relax_cell : Bool) (kwargs : ConfigDict) :
    ConfigDict :=
  vasp_base_job_flags (some (vasp_relax_defaults relax_cell)) (some kwargs)

/-- Calculator flags of `slab_static_job` for given user kwargs. -/
def slab_static_job_flags (kwargs : ConfigDict) : ConfigDict :=
  vasp_base_job_flags (some slab_static_defaults) (some kwargs)

/-- Calculator flags of `slab_relax_job` for given user kwargs. -/
def slab_relax_job_flags (kwargs : ConfigDict) : ConfigDict :=
  vasp_base_job_flags (some slab_relax_defaults) (some kwargs)

/-- A layer argument as handed to the merge engine: a mapping, the absent
marker (`None` layer), or some other, non-mapping value. -/
inductive LayerArg where
  | mapping : ConfigDict → LayerArg
  | absent : LayerArg
  | other : Val → LayerArg
deriving DecidableEq

/-- The merge engine's error. -/
inductive MergeError where
  | invalidArgument : MergeError
deriving DecidableEq

/-- Whether a layer argument is a non-mapping, non-absent value. -/
def isOtherArg : LayerArg → Bool
  | LayerArg.other _ => true
  | _ => false

/-- Classify one layer argument: mappings and absent layers are accepted,
anything else is an InvalidArgument failure. -/
def asLayer : LayerArg → Except MergeError (Option ConfigDict)
  | LayerArg.mapping m => Except.ok (some m)
  | LayerArg.absent => Except.ok none
  | LayerArg.other _ => Except.error MergeError.invalidArgument

/-- Validate the whole argument list, failing fast on the first
non-mapping, non-absent argument. -/
def validateArgs : List LayerArg →
    Except MergeError (List (Option ConfigDict))
  | [] => Except.ok []
  | a :: rest =>
    match asLayer a with
    | Except.error e => Except.error e
    | Except.ok ol =>
      match validateArgs rest with
      | Except.error e => Except.error e
      | Except.ok ols => Except.ok (ol :: ols)

/-- Modelled from the spec: the merge engine's input validation
(`quacc.utils.dicts` is missing from the repository snapshot).  A layer
argument that is neither a mapping nor absent fails fast with
InvalidArgument and no partial merged result is returned; valid inputs
are merged by the algorithm above. -/
def merge_dicts_checked (args : List LayerArg) (remove_nones : Bool) :
    Except MergeError ConfigDict :=
  match validateArgs args with
  | Except.error e => Except.error e
  | Except.ok layers => Except.ok (merge_dicts layers remove_nones)

/-- A store of Python dictionary objects, addressed by object identity
(a natural number): the explicit-heap model used to state that the merge
never mutates its caller's dictionaries. -/
abbrev Store : Type := Nat → ConfigDict

/-- Reading the dictionary object at address `a`. -/
def readDict (s : Store) (a : Nat) : ConfigDict := s a

/-- Overwriting the dictionary object at address `a`. -/
def writeDict (s : Store) (a : Nat) (m : ConfigDict) : Store :=
  fun b => if a = b then m else s b

/-- One merge step acting on the store: read the result object at
address `res`, apply one key/value pair of a layer to it, and write it
back.  Only `res` is ever written. -/
def storeApplyEntry (remove_nones : Bool) (res : Nat) (s : Store)
    (kv : String × Option Val) : Store :=
  writeDict s res (applyEntry remove_nones (readDict s res) kv)

/-- Fold one layer into the result object living at address `res`. -/
def storeMergeLayer (remove_nones : Bool) (res : Nat) (s : Store)
    (layer : ConfigDict) : Store :=
  layer.foldl (storeApplyEntry remove_nones res) s

/-- Fold one optional layer reference into the result object: absent
references are skipped, a present reference is dereferenced in the
current store and its entries applied. -/
def storeApplyLayerOpt (remove_nones : Bool) (res : Nat) (s : Store)
    (r : Option Nat) : Store :=
  match r with
  | none => s
  | some a => storeMergeLayer remove_nones res s (readDict s a)

/-- Modelled from the spec: the merge engine run against an explicit
store of dictionary objects, with the input layers passed by reference
and the result accumulated in a freshly allocated dictionary at address
`res`.  Returns the result address and the final store. -/
def merge_dicts_proc (s : Store) (refs : List (Option Nat))
    (remove_nones : Bool) (res : Nat) : Nat × Store :=
  (res, refs.foldl (storeApplyLayerOpt remove_nones res) (writeDict s res []))

/-- The Q-Chem recipe error raised on mutually exclusive settings. -/
inductive QChemError where
  | conflictingOptions : QChemError
deriving DecidableEq

/-- The externally visible action of launching the quantum-chemistry
engine process. -/
inductive EngineAction where
  | launchEngine : EngineAction
deriving DecidableEq

/-- Modelled from the spec: the caller-side validation of the Q-Chem
recipes (`quacc/recipes/qchem` is missing from the repository snapshot;
its tests `test_static_job_v5` and `test_relax_job_v4` show the recipe
raising when both `pcm_dielectric` and `smd_solvent` are supplied).
Two implicit-solvation options present at once is a ConflictingOptions
error. -/
def check_solvent_options (pcm_dielectric smd_solvent : Option String) :
    Except QChemError Unit :=
  if pcm_dielectric.isSome && smd_solvent.isSome then
    Except.error QChemError.conflictingOptions
  else Except.ok ()

/-- Modelled from the spec: a Q-Chem recipe invocation reduced to its
validation-then-launch skeleton.  The first component records which
external actions were performed; validation runs before any engine
launch, so a validation failure performs none. -/
def qchem_job_actions (pcm_dielectric smd_solvent : Option String) :
    List EngineAction × Except QChemError Unit :=
  match check_solvent_options pcm_dielectric smd_solvent with
  | Except.error e => ([], Except.error e)
  | Except.ok _ => ([EngineAction.launchEngine], Except.ok ())

/-- A value of a result document (`VaspSchema`): an opaque atoms object,
a nested document, or a plain configuration value. -/
inductive DocVal where
  | vatoms : Nat → DocVal
  | vdoc : List (String × DocVal) → DocVal
  | vplain : Val → DocVal

/-- A result document: the dictionary returned by a recipe. -/
abbrev Doc : Type := List (String × DocVal)

/-- `double_relax_job` from `src/quacc/recipes/vasp/core.py`
(lines 191-212), parameterized over the underlying (unwrapped)
`relax_job`, which runs the external VASP engine and is therefore
abstract here.  `relax` takes the atoms object, `preset`, `relax_cell`,
`copy_files` and the extra kwargs, and returns the relaxation summary.
The code defaults the kwargs dictionaries to empty, runs the first
relaxation, runs the second relaxation on `summary1["atoms"]` with the
same `preset` and `relax_cell` plus `copy_files=["WAVECAR"]`, stores the
first summary under key `"relax1"` of the second, and returns the
second.  A missing `"atoms"` key in the first summary would be a Python
`KeyError`, modelled as `none`. -/
def double_relax_job
    (relax : DocVal → Option String → Bool → Option (List String) →
      Doc → Doc)
    (atoms : DocVal) (preset : Option String) (relax_cell : Bool)
    (relax1_kwargs relax2_kwargs : Option Doc) : Option Doc :=
  let k1 := relax1_kwargs.getD []
  let k2 := relax2_kwargs.getD []
  let summary1 := relax atoms preset relax_cell none k1
  match lookupKey summary1 "atoms" with
  | none => none
  | some a =>
    let summary2 := relax a preset relax_cell (some ["WAVECAR"]) k2
    some (setKey summary2 "relax1" (DocVal.vdoc summary1))

/-- Concrete store used to exercise the frame property of the merge:
two caller dictionaries at addresses 0 and 1. -/
def storeEx : Store :=
  fun a =>
    if a = 0 then [("x", some (Val.vint 1))]
    else if a = 1 then [("x", none)]
    else []

/-- Concrete stand-in for the unwrapped `relax_job`: returns a summary
holding the input atoms object and an energy field. -/
def relaxEx : DocVal → Option String → Bool → Option (List String) →
    Doc → Doc :=
  fun x _ _ _ _ => [("atoms", x), ("energy", DocVal.vplain (Val.vint 42))]

/-- The summary `relaxEx` produces on the atoms object `vatoms 7`. -/
def docEx : Doc :=
  [("atoms", DocVal.vatoms 7), ("energy", DocVal.vplain (Val.vint 42))]

theorem keysOf_cons {α : Type} (kv : String × α) (m : List (String × α)) :
    keysOf (kv :: m) = kv.1 :: keysOf m := rfl

theorem layerLast_cons (k : String) (d : Option (Option Val))
    (kv : String × Option Val) (rest : ConfigDict) :
    layerLast k d (kv :: rest) =
      layerLast k (if kv.1 = k then some kv.2 else d) rest := rfl

theorem lookup_setKey {α : Type} (key : String) (v : α) (k : String) :
    ∀ m : List (String × α),
      lookupKey (setKey m key v) k =
        if key = k then some v else lookupKey m k := by
  intro m
  induction m with
  | nil => simp [setKey, lookupKey]
  | cons kv rest ih =>
    by_cases h : kv.1 = key
    · by_cases hk : key = k
      · simp [setKey, lookupKey, h, hk]
      · have hne : ¬ kv.1 = k := by rw [h]; exact hk
        simp [setKey, lookupKey, h, hk, hne]
    · by_cases hk : kv.1 = k
      · have hkk : ¬ key = k := fun e => h (hk.trans e.symm)
        simp only [setKey, lookupKey, if_neg h, if_pos hk, if_neg hkk]
      · simp [setKey, lookupKey, h, hk, ih]

theorem lookup_delKey {α : Type} (key k : String) :
    ∀ m : List (String × α),
      lookupKey (delKey m key) k =
        if key = k then none else lookupKey m k := by
  intro m
  induction m with
  | nil => simp [delKey, lookupKey]
  | cons kv rest ih =>
    by_cases h : kv.1 = key
    · by_cases hk : key = k
      · simp only [delKey, if_pos h, ih, if_pos hk]
      · have hne : ¬ kv.1 = k := by rw [h]; exact hk
        simp [delKey, lookupKey, h, ih, hk, hne]
    · by_cases hk : kv.1 = k
      · have hkk : ¬ key = k := fun e => h (hk.trans e.symm)
        simp only [delKey, lookupKey, if_neg h, if_pos hk, if_neg hkk]
      · simp [delKey, lookupKey, h, hk, ih]

theorem lookup_applyEntry (rn : Bool) (acc : ConfigDict)
    (kv : String × Option Val) (k : String) :
    lookupKey (applyEntry rn acc kv) k =
      if kv.1 = k then sentinelView rn (some kv.2) else lookupKey acc k := by
  unfold applyEntry sentinelView
  by_cases h : (rn && kv.2.isNone) = true
  · simp [h, lookup_delKey]
  · simp [h, lookup_setKey]

theorem lookup_mergeLayer (rn : Bool) (k : String) :
    ∀ (layer acc : ConfigDict) (d : Option (Option Val)),
      lookupKey acc k = sentinelView rn d →
      lookupKey (mergeLayer rn acc layer) k =
        sentinelView rn (layerLast k d layer) := by
  intro layer
  induction layer with
  | nil =>
    intro acc d h
    simpa [mergeLayer, layerLast] using h
  | cons kv rest ih =>
    intro acc d h
    have step : lookupKey (applyEntry rn acc kv) k =
        sentinelView rn (if kv.1 = k then some kv.2 else d) := by
      rw [lookup_applyEntry]
      by_cases hk : kv.1 = k
      · simp [hk]
      · simp [hk, h]
    have hrec := ih (applyEntry rn acc kv) (if kv.1 = k then some kv.2 else d)
      step
    simpa [mergeLayer, layerLast] using hrec

theorem lookup_merge_aux (rn : Bool) (k : String) :
    ∀ (layers : List (Option ConfigDict)) (acc : ConfigDict)
      (d : Option (Option Val)),
      lookupKey acc k = sentinelView rn d →
      lookupKey (layers.foldl (applyLayerOpt rn) acc) k =
        sentinelView rn (layers.foldl (lastDefStep k) d) := by
  intro layers
  induction layers with
  | nil =>
    intro acc d h
    simpa using h
  | cons ol rest ih =>
    intro acc d h
    cases ol with
    | none =>
      simpa [applyLayerOpt, lastDefStep] using ih acc d h
    | some layer =>
      simpa [applyLayerOpt, lastDefStep] using
        ih (mergeLayer rn acc layer) (layerLast k d layer)
          (lookup_mergeLayer rn k layer acc d h)

theorem lookup_merge_dicts (layers : List (Option ConfigDict)) (rn : Bool)
    (k : String) :
    lookupKey (merge_dicts layers rn) k = sentinelView rn (lastDef layers k) := by
  simpa [merge_dicts, lastDef] using lookup_merge_aux rn k layers [] none rfl

theorem lookup_none_of_not_mem {α : Type} (k : String) :
    ∀ m : List (String × α), ¬ k ∈ keysOf m → lookupKey m k = none := by
  intro m
  induction m with
  | nil => intro _; rfl
  | cons kv rest ih =>
    intro h
    have hk : ¬ kv.1 = k := fun e => h (by simp [keysOf_cons, e])
    have h2 : ¬ k ∈ keysOf rest := fun e => h (by simp [keysOf_cons, e])
    simp [lookupKey, hk, ih h2]

theorem layerLast_of_lookup_none (k : String) :
    ∀ (m : ConfigDict) (d : Option (Option Val)),
      lookupKey m k = none → layerLast k d m = d := by
  intro m
  induction m with
  | nil => intro d _; rfl
  | cons kv rest ih =>
    intro d h
    by_cases hk : kv.1 = k
    · exact absurd h (by simp [lookupKey, hk])
    · have h2 : lookupKey rest k = none := by simpa [lookupKey, hk] using h
      rw [layerLast_cons, if_neg hk]
      exact ih d h2

theorem layerLast_of_lookup_some (k : String) :
    ∀ (m : ConfigDict) (d : Option (Option Val)) (v : Option Val),
      (keysOf m).Nodup → lookupKey m k = some v → layerLast k d m = some v := by
  intro m
  induction m with
  | nil => intro d v _ h; cases h
  | cons kv rest ih =>
    intro d v hnd h
    rw [keysOf_cons] at hnd
    obtain ⟨hout, hnd2⟩ := List.nodup_cons.mp hnd
    by_cases hk : kv.1 = k
    · have hv : kv.2 = v := by simpa [lookupKey, hk] using h
      have h2 : lookupKey rest k = none :=
        lookup_none_of_not_mem k rest (hk ▸ hout)
      rw [layerLast_cons, if_pos hk, layerLast_of_lookup_none k rest _ h2, hv]
    · have h2 : lookupKey rest k = some v := by simpa [lookupKey, hk] using h
      rw [layerLast_cons, if_neg hk]
      exact ih d v hnd2 h2

theorem setKey_of_lookup_none {α : Type} (key : String) (v : α) :
    ∀ m : List (String × α),
      lookupKey m key = none → setKey m key v = m ++ [(key, v)] := by
  intro m
  induction m with
  | nil => intro _; rfl
  | cons kv rest ih =>
    intro h
    by_cases hk : kv.1 = key
    · exact absurd h (by simp [lookupKey, hk])
    · have h2 : lookupKey rest key = none := by simpa [lookupKey, hk] using h
      simp [setKey, hk, ih h2]

theorem lookup_append {α : Type} (k : String) :
    ∀ m m2 : List (String × α),
      lookupKey (m ++ m2) k =
        (match lookupKey m k with
         | some v => some v
         | none => lookupKey m2 k) := by
  intro m m2
  induction m with
  | nil => rfl
  | cons kv rest ih =>
    by_cases hk : kv.1 = k
    · simp [lookupKey, hk]
    · simp [lookupKey, hk, ih]

theorem foldl_all_absent (rn : Bool) :
    ∀ (layers : List (Option ConfigDict)) (acc : ConfigDict),
      (∀ l ∈ layers, l = none) →
      layers.foldl (applyLayerOpt rn) acc = acc := by
  intro layers
  induction layers with
  | nil => intro acc _; rfl
  | cons ol rest ih =>
    intro acc h
    have h1 : ol = none := h ol (by simp)
    subst h1
    show rest.foldl (applyLayerOpt rn) (applyLayerOpt rn acc none) = acc
    exact ih acc (fun l hl => h l (by simp [hl]))

theorem validateArgs_error :
    ∀ args : List LayerArg, (∃ a ∈ args, isOtherArg a = true) →
      validateArgs args = Except.error MergeError.invalidArgument := by
  intro args
  induction args with
  | nil =>
    intro h
    obtain ⟨a, ha, _⟩ := h
    cases ha
  | cons a rest ih =>
    intro h
    cases a with
    | other v => rfl
    | mapping m =>
      obtain ⟨b, hb, hob⟩ := h
      rcases List.mem_cons.mp hb with h1 | h1
      · subst h1
        simp [isOtherArg] at hob
      · have hrec := ih ⟨b, h1, hob⟩
        simp [validateArgs, asLayer, hrec]
    | absent =>
      obtain ⟨b, hb, hob⟩ := h
      rcases List.mem_cons.mp hb with h1 | h1
      · subst h1
        simp [isOtherArg] at hob
      · have hrec := ih ⟨b, h1, hob⟩
        simp [validateArgs, asLayer, hrec]

theorem validateArgs_ok :
    ∀ args : List LayerArg, (∀ a ∈ args, isOtherArg a = false) →
      ∃ ls, validateArgs args = Except.ok ls := by
  intro args
  induction args with
  | nil => intro _; exact ⟨[], rfl⟩
  | cons a rest ih =>
    intro h
    obtain ⟨ls, hls⟩ := ih (fun b hb => h b (List.mem_cons_of_mem _ hb))
    cases a with
    | mapping m => exact ⟨some m :: ls, by simp [validateArgs, asLayer, hls]⟩
    | absent => exact ⟨none :: ls, by simp [validateArgs, asLayer, hls]⟩
    | other v =>
      have hv := h (LayerArg.other v) (by simp)
      simp [isOtherArg] at hv

theorem storeMergeLayer_frame (rn : Bool) (res : Nat) :
    ∀ (layer : ConfigDict) (s : Store),
      (∀ a, a ≠ res →
        readDict (storeMergeLayer rn res s layer) a = readDict s a)
      ∧ readDict (storeMergeLayer rn res s layer) res =
          mergeLayer rn (readDict s res) layer := by
  intro layer
  induction layer with
  | nil => intro s; exact ⟨fun a _ => rfl, rfl⟩
  | cons kv rest ih =>
    intro s
    have hstep : ∀ a, a ≠ res →
        readDict (storeApplyEntry rn res s kv) a = readDict s a := by
      intro a ha
      show (if res = a then applyEntry rn (readDict s res) kv else s a) = s a
      rw [if_neg (Ne.symm ha)]
    have hres : readDict (storeApplyEntry rn res s kv) res =
        applyEntry rn (readDict s res) kv := by
      show (if res = res then applyEntry rn (readDict s res) kv else s res) = _
      rw [if_pos rfl]
    constructor
    · intro a ha
      calc readDict (storeMergeLayer rn res s (kv :: rest)) a
          = readDict (storeMergeLayer rn res (storeApplyEntry rn res s kv)
              rest) a := rfl
        _ = readDict (storeApplyEntry rn res s kv) a :=
            (ih (storeApplyEntry rn res s kv)).1 a ha
        _ = readDict s a := hstep a ha
    · calc readDict (storeMergeLayer rn res s (kv :: rest)) res
          = readDict (storeMergeLayer rn res (storeApplyEntry rn res s kv)
              rest) res := rfl
        _ = mergeLayer rn (readDict (storeApplyEntry rn res s kv) res) rest :=
            (ih (storeApplyEntry rn res s kv)).2
        _ = mergeLayer rn (applyEntry rn (readDict s res) kv) rest := by
            rw [hres]
        _ = mergeLayer rn (readDict s res) (kv :: rest) := rfl

theorem merge_proc_frame (rn : Bool) (res : Nat) :
    ∀ (refs : List (Option Nat)) (s : Store), ¬ some res ∈ refs →
      (∀ a, a ≠ res →
        readDict (refs.foldl (storeApplyLayerOpt rn res) s) a = readDict s a)
      ∧ readDict (refs.foldl (storeApplyLayerOpt rn res) s) res =
          (refs.map (fun r => r.map (readDict s))).foldl (applyLayerOpt rn)
            (readDict s res) := by
  intro refs
  induction refs with
  | nil => intro s _; exact ⟨fun a _ => rfl, rfl⟩
  | cons r rest ih =>
    intro s hmem
    have hr : ¬ some res ∈ rest := fun h => hmem (List.mem_cons_of_mem _ h)
    cases r with
    | none =>
      have hrec := ih s hr
      refine ⟨fun a ha => ?_, ?_⟩
      · simpa [storeApplyLayerOpt] using hrec.1 a ha
      · simpa [storeApplyLayerOpt, applyLayerOpt] using hrec.2
    | some b =>
      have hb : b ≠ res := fun e => hmem (by simp [e])
      have hrec := ih (storeMergeLayer rn res s (readDict s b)) hr
      have hlayer := storeMergeLayer_frame rn res (readDict s b) s
      refine ⟨fun a ha => ?_, ?_⟩
      · show readDict (rest.foldl (storeApplyLayerOpt rn res)
            (storeMergeLayer rn res s (readDict s b))) a = readDict s a
        rw [hrec.1 a ha, hlayer.1 a ha]
      · have hmap : rest.map (fun r => r.map
            (readDict (storeMergeLayer rn res s (readDict s b)))) =
            rest.map (fun r => r.map (readDict s)) := by
          apply List.map_congr_left
          intro r hrmem
          cases r with
          | none => rfl
          | some c =>
            have hc : c ≠ res := fun e => hr (e ▸ hrmem)
            simp [hlayer.1 c hc]
        show readDict (rest.foldl (storeApplyLayerOpt rn res)
            (storeMergeLayer rn res s (readDict s b))) res =
          (rest.map (fun r => r.map (readDict s))).foldl (applyLayerOpt rn)
            (mergeLayer rn (readDict s res) (readDict s b))
        rw [hrec.2, hmap, hlayer.2]

theorem double_relax_job_eq
    (relax : DocVal → Option String → Bool → Option (List String) → Doc → Doc)
    (atoms : DocVal) (preset : Option String) (relax_cell : Bool)
    (rk1 rk2 : Option Doc) (a : DocVal)
    (ha : lookupKey (relax atoms preset relax_cell none (rk1.getD []))
      "atoms" = some a) :
    double_relax_job relax atoms preset relax_cell rk1 rk2 =
      some (setKey (relax a preset relax_cell (some ["WAVECAR"]) (rk2.getD []))
        "relax1"
        (DocVal.vdoc (relax atoms preset relax_cell none (rk1.getD [])))) := by
  have hunfold : double_relax_job relax atoms preset relax_cell rk1 rk2 =
      match lookupKey (relax atoms preset relax_cell none (rk1.getD []))
        "atoms" with
      | none => none
      | some a2 => some (setKey
          (relax a2 preset relax_cell (some ["WAVECAR"]) (rk2.getD []))
          "relax1"
          (DocVal.vdoc (relax atoms preset relax_cell none (rk1.getD [])))) :=
    rfl
  rw [hunfold, ha]

/-- C1: for every sequence of configuration layers and every key, the
merged mapping holds the key with the value from the highest-precedence
(highest-index) layer that defines it, except that a removal-sentinel
final value with removal semantics enabled makes the key absent from the
merged result regardless of lower-layer definitions. -/
theorem merged_value_matches_highest_layer
    (layers : List (Option ConfigDict)) (remove_nones : Bool) (k : String) :
    lookupKey (merge_dicts layers remove_nones) k =
      sentinelView remove_nones (lastDef layers k) := by
  simpa [merge_dicts, lastDef] using
    lookup_merge_aux remove_nones k layers [] none rfl

/-- C2: with removal semantics enabled, a key deleted by a middle layer
and re-set by a higher layer ends up present with the higher value:
merging the layers a=1, a=None, a=5 with remove_nones yields a=5. -/
theorem redefinition_after_deletion_wins :
    merge_dicts [some [("a", some (Val.vint 1))], some [("a", none)],
      some [("a", some (Val.vint 5))]] true = [("a", some (Val.vint 5))] := rfl

/-- C3: with removal semantics disabled, a None-valued key in the
overriding layer is stored as a literal null instead of deleting the key:
merging a=1 with a=None and remove_nones disabled yields a=None. -/
theorem disabled_removal_keeps_literal_null :
    merge_dicts [some [("a", some (Val.vint 1))], some [("a", none)]] false =
      [("a", none)] := rfl

/-- C4: in the four VASP recipes (static_job, relax_job, slab_static_job,
slab_relax_job), a user-supplied kwarg with value None does not remove the
corresponding default key from the merged calculator flags: the VASP
_base_job merges with remove_nones False, so any such key (the default
keys in particular) stays present bound to a literal None in the flags
handed to the Vasp calculator, despite the recipe docstrings saying None
removes the key. -/
theorem vasp_none_value_kept (kwargs : ConfigDict) (k : String)
    (hnd : (keysOf kwargs).Nodup) (hk : lookupKey kwargs k = some none) :
    lookupKey (vasp_static_job_flags kwargs) k = some none
    ∧ (∀ relax_cell : Bool,
        lookupKey (vasp_relax_job_flags relax_cell kwargs) k = some none)
    ∧ lookupKey (slab_static_job_flags kwargs) k = some none
    ∧ lookupKey (slab_relax_job_flags kwargs) k = some none := by
  have key : ∀ defaults : ConfigDict,
      lookupKey (vasp_base_job_flags (some defaults) (some kwargs)) k =
        some none := by
    intro defaults
    show lookupKey (merge_dicts [some defaults, some kwargs] false) k =
      some none
    rw [lookup_merge_dicts]
    have hd : lastDef [some defaults, some kwargs] k = some none := by
      show layerLast k (layerLast k none defaults) kwargs = some none
      exact layerLast_of_lookup_some k kwargs _ none hnd hk
    rw [hd]
    rfl
  exact ⟨key _, fun relax_cell => key _, key _, key _⟩

/-- Witness for C4 at the concrete input of one user kwarg binding "nsw"
to None, "nsw" being a key all four default dictionaries define. -/
theorem vasp_none_value_kept_check :
    lookupKey (vasp_static_job_flags [("nsw", none)]) "nsw" = some none
    ∧ lookupKey (vasp_relax_job_flags true [("nsw", none)]) "nsw" = some none
    ∧ lookupKey (slab_static_job_flags [("nsw", none)]) "nsw" = some none
    ∧ lookupKey (slab_relax_job_flags [("nsw", none)]) "nsw" = some none := by
  have h := vasp_none_value_kept [("nsw", none)] "nsw" (by decide) rfl
  exact ⟨h.1, h.2.1 true, h.2.2.1, h.2.2.2⟩

/-- C5: the merge is pure: run against an explicit store of dictionary
objects, with the result accumulated at a fresh address, every caller
dictionary reads back unchanged afterwards, and the store differs only in
the fresh result cell, which holds exactly the functional merge of the
snapshot of the input layers. -/
theorem merge_never_mutates_inputs (s : Store) (refs : List (Option Nat))
    (remove_nones : Bool) (res : Nat) (hres : ¬ some res ∈ refs) :
    (∀ a, a ≠ res →
      readDict (merge_dicts_proc s refs remove_nones res).2 a = readDict s a)
    ∧ readDict (merge_dicts_proc s refs remove_nones res).2 res =
        merge_dicts (refs.map (fun r => r.map (readDict s))) remove_nones := by
  have h := merge_proc_frame remove_nones res refs (writeDict s res []) hres
  have hread : ∀ a, a ≠ res →
      readDict (writeDict s res []) a = readDict s a := by
    intro a ha
    show (if res = a then ([] : ConfigDict) else s a) = s a
    rw [if_neg (Ne.symm ha)]
  have hmap : refs.map (fun r => r.map (readDict (writeDict s res []))) =
      refs.map (fun r => r.map (readDict s)) := by
    apply List.map_congr_left
    intro r hrmem
    cases r with
    | none => rfl
    | some c =>
      have hc : c ≠ res := fun e => hres (e ▸ hrmem)
      simp [hread c hc]
  have hinit : readDict (writeDict s res []) res = [] := by
    show (if res = res then ([] : ConfigDict) else s res) = []
    rw [if_pos rfl]
  constructor
  · intro a ha
    show readDict (refs.foldl (storeApplyLayerOpt remove_nones res)
      (writeDict s res [])) a = readDict s a
    rw [h.1 a ha, hread a ha]
  · show readDict (refs.foldl (storeApplyLayerOpt remove_nones res)
      (writeDict s res [])) res = _
    rw [h.2, hmap, hinit]
    rfl

/-- Witness for C5 at a concrete store with caller dictionaries at
addresses 0 and 1 and the result at the fresh address 2. -/
theorem merge_never_mutates_inputs_check :
    readDict (merge_dicts_proc storeEx [some 0, some 1] true 2).2 0 =
      readDict storeEx 0
    ∧ readDict (merge_dicts_proc storeEx [some 0, some 1] true 2).2 2 =
        merge_dicts ([some 0, some 1].map (fun r => r.map (readDict storeEx)))
          true := by
  have h := merge_never_mutates_inputs storeEx [some 0, some 1] true 2
    (by decide)
  exact ⟨h.1 0 (by decide), h.2⟩

/-- C6: a layer argument that is neither a mapping nor absent makes the
merge fail fast with InvalidArgument and no partial merged result, while
inputs whose layers are each a mapping or absent always merge
successfully. -/
theorem merge_rejects_non_mapping_layers (args : List LayerArg)
    (remove_nones : Bool) :
    ((∃ a ∈ args, isOtherArg a = true) →
      merge_dicts_checked args remove_nones =
        Except.error MergeError.invalidArgument)
    ∧ ((∀ a ∈ args, isOtherArg a = false) →
      ∃ m, merge_dicts_checked args remove_nones = Except.ok m) := by
  constructor
  · intro h
    simp [merge_dicts_checked, validateArgs_error args h]
  · intro h
    obtain ⟨ls, hls⟩ := validateArgs_ok args h
    exact ⟨merge_dicts ls remove_nones, by simp [merge_dicts_checked, hls]⟩

/-- Witness for C6: a non-mapping layer argument (the integer 3) is
rejected with InvalidArgument, and mapping/absent layers merge fine. -/
theorem merge_rejects_non_mapping_layers_check :
    merge_dicts_checked [LayerArg.mapping [("a", some (Val.vint 1))],
      LayerArg.other (Val.vint 3)] true =
      Except.error MergeError.invalidArgument
    ∧ merge_dicts_checked [LayerArg.mapping [("a", some (Val.vint 1))],
      LayerArg.absent] true = Except.ok [("a", some (Val.vint 1))] :=
  ⟨(merge_rejects_non_mapping_layers [LayerArg.mapping
      [("a", some (Val.vint 1))], LayerArg.other (Val.vint 3)] true).1
    (by decide), rfl⟩

/-- C7: a recipe invocation whose merged configuration carries two
mutually exclusive solvation settings (pcm_dielectric and smd_solvent
both present) fails caller-side validation with ConflictingOptions, and
no external engine process is launched. -/
theorem conflicting_options_block_launch
    (pcm_dielectric smd_solvent : Option String)
    (hp : pcm_dielectric.isSome = true) (hs : smd_solvent.isSome = true) :
    (qchem_job_actions pcm_dielectric smd_solvent).1 = []
    ∧ (qchem_job_actions pcm_dielectric smd_solvent).2 =
        Except.error QChemError.conflictingOptions := by
  simp [qchem_job_actions, check_solvent_options, hp, hs]

/-- Witness for C7 at the test inputs pcm_dielectric="3.0",
smd_solvent="water". -/
theorem conflicting_options_block_launch_check :
    (qchem_job_actions (some "3.0") (some "water")).1 = []
    ∧ (qchem_job_actions (some "3.0") (some "water")).2 =
        Except.error QChemError.conflictingOptions :=
  conflicting_options_block_launch (some "3.0") (some "water") rfl rfl

/-- C8: absent layers are identity elements of the merge, and a merge of
zero layers, or of only absent layers, yields the empty mapping. -/
theorem absent_layers_are_identity (L1 L2 : ConfigDict) (remove_nones : Bool)
    (layers : List (Option ConfigDict)) :
    merge_dicts [some L1, none, some L2] remove_nones =
      merge_dicts [some L1, some L2] remove_nones
    ∧ merge_dicts [] remove_nones = []
    ∧ ((∀ l ∈ layers, l = none) → merge_dicts layers remove_nones = []) :=
  ⟨rfl, rfl, fun h => foldl_all_absent remove_nones layers [] h⟩

/-- Witness for C8 at concrete one-key layers and the all-absent list of
two None layers. -/
theorem absent_layers_are_identity_check :
    merge_dicts [some [("a", some (Val.vint 1))], none,
      some [("b", some (Val.vint 2))]] true =
      merge_dicts [some [("a", some (Val.vint 1))],
        some [("b", some (Val.vint 2))]] true
    ∧ merge_dicts [] true = []
    ∧ merge_dicts [none, none] true = [] := by
  have h := absent_layers_are_identity [("a", some (Val.vint 1))]
    [("b", some (Val.vint 2))] true [none, none]
  exact ⟨h.1, h.2.1, h.2.2 (by decide)⟩

/-- C9: the Gaussian relax_job defaults map "freq" to None when freq is
False and _base_job merges with removal semantics on, so with no
user-supplied "freq" kwarg the merged calculator flags have no "freq" key
at all; with freq True the flags map "freq" to the empty string. -/
theorem gaussian_relax_freq_key (cpu_count : Nat) (xc basis : String)
    (charge spin_multiplicity : Int) (kwargs : ConfigDict)
    (h : lookupKey kwargs "freq" = none) :
    lookupKey (gaussian_relax_job_flags cpu_count xc basis charge
      spin_multiplicity false kwargs) "freq" = none
    ∧ lookupKey (gaussian_relax_job_flags cpu_count xc basis charge
        spin_multiplicity true kwargs) "freq" =
        some (some (Val.vstr "")) := by
  constructor
  · show lookupKey (merge_dicts [some (gaussian_relax_defaults cpu_count xc
      basis charge spin_multiplicity false), some kwargs] true) "freq" = none
    rw [lookup_merge_dicts]
    have hd : lastDef [some (gaussian_relax_defaults cpu_count xc basis
        charge spin_multiplicity false), some kwargs] "freq" = some none := by
      show layerLast "freq" (layerLast "freq" none (gaussian_relax_defaults
        cpu_count xc basis charge spin_multiplicity false)) kwargs = some none
      rw [layerLast_of_lookup_none "freq" kwargs _ h]
      simp [gaussian_relax_defaults, layerLast]
    rw [hd]
    rfl
  · show lookupKey (merge_dicts [some (gaussian_relax_defaults cpu_count xc
      basis charge spin_multiplicity true), some kwargs] true) "freq" =
      some (some (Val.vstr ""))
    rw [lookup_merge_dicts]
    have hd : lastDef [some (gaussian_relax_defaults cpu_count xc basis
        charge spin_multiplicity true), some kwargs] "freq" =
        some (some (Val.vstr "")) := by
      show layerLast "freq" (layerLast "freq" none (gaussian_relax_defaults
        cpu_count xc basis charge spin_multiplicity true)) kwargs =
        some (some (Val.vstr ""))
      rw [layerLast_of_lookup_none "freq" kwargs _ h]
      simp [gaussian_relax_defaults, layerLast]
    rw [hd]
    rfl

/-- Witness for C9 at a concrete relax_job call with four processors and
no user kwargs. -/
theorem gaussian_relax_freq_key_check :
    lookupKey (gaussian_relax_job_flags 4 "wb97x-d" "def2-tzvp" 0 1 false [])
      "freq" = none
    ∧ lookupKey (gaussian_relax_job_flags 4 "wb97x-d" "def2-tzvp" 0 1 true [])
        "freq" = some (some (Val.vstr "")) :=
  gaussian_relax_freq_key 4 "wb97x-d" "def2-tzvp" 0 1 [] rfl

/-- C10: double_relax_job returns exactly the second relaxation's summary
augmented with the single additional key "relax1" holding the first
relaxation's complete summary; the second relaxation is run on the atoms
of the first summary with the same preset and relax_cell arguments. -/
theorem double_relax_returns_augmented_second
    (relax : DocVal → Option String → Bool → Option (List String) → Doc → Doc)
    (atoms : DocVal) (preset : Option String) (relax_cell : Bool)
    (rk1 rk2 : Option Doc) (s1 s2 : Doc) (a : DocVal)
    (hs1 : s1 = relax atoms preset relax_cell none (rk1.getD []))
    (ha : lookupKey s1 "atoms" = some a)
    (hs2 : s2 = relax a preset relax_cell (some ["WAVECAR"]) (rk2.getD []))
    (hfresh : lookupKey s2 "relax1" = none) :
    double_relax_job relax atoms preset relax_cell rk1 rk2 =
      some (s2 ++ [("relax1", DocVal.vdoc s1)])
    ∧ lookupKey (s2 ++ [("relax1", DocVal.vdoc s1)]) "relax1" =
        some (DocVal.vdoc s1)
    ∧ (∀ k, k ≠ "relax1" →
        lookupKey (s2 ++ [("relax1", DocVal.vdoc s1)]) k = lookupKey s2 k)
    ∧ keysOf (s2 ++ [("relax1", DocVal.vdoc s1)]) =
        keysOf s2 ++ ["relax1"] := by
  refine ⟨?_, ?_, ?_, ?_⟩
  · subst hs1
    subst hs2
    rw [double_relax_job_eq relax atoms preset relax_cell rk1 rk2 a ha]
    rw [setKey_of_lookup_none "relax1" _ _ hfresh]
  · rw [lookup_append, hfresh]
    simp [lookupKey]
  · intro k hk
    rw [lookup_append]
    cases hv : lookupKey s2 k with
    | some v => rfl
    | none =>
      have h1 : ¬ ("relax1" = k) := Ne.symm hk
      simp [lookupKey, h1]
  · simp [keysOf]

/-- Witness for C10 with a concrete relax function returning the input
atoms object and an energy field. -/
theorem double_relax_returns_augmented_second_check :
    double_relax_job relaxEx (DocVal.vatoms 7) none true none none =
      some (docEx ++ [("relax1", DocVal.vdoc docEx)])
    ∧ lookupKey (docEx ++ [("relax1", DocVal.vdoc docEx)]) "relax1" =
        some (DocVal.vdoc docEx)
    ∧ keysOf (docEx ++ [("relax1", DocVal.vdoc docEx)]) =
        keysOf docEx ++ ["relax1"] := by
  have h := double_relax_returns_augmented_second relaxEx (DocVal.vatoms 7)
    none true none none docEx docEx (DocVal.vatoms 7) rfl rfl rfl rfl
  exact ⟨h.1, h.2.1, h.2.2.2⟩

end Quacc
